import Mathlib

/-!
Verification of the generic instance-reconciliation engine of the
aiven-operator repository (controllers/controller.go) against its
natural-language specification.

The engine is shallowly embedded: Kubernetes objects become explicit records,
handler implementations become records of functions, and every external call
(Kubernetes persistence, the Aiven client) is resolved through an explicit
environment recording its outcome.  Each Lean definition mirrors the Go
function of the same (or closely related) name; helper predicates that live in
the repository but outside the excerpted file are modelled from the spec and
marked as such in their doc comments.
-/

namespace AivenOperator

/-- A Go `error` value as the engine observes it: a message (for
`strings.Contains` checks), an HTTP-like status (for `aiven.IsNotFound`,
which looks for status 404 on an Aiven error), and a flag telling whether the
error originated from the Aiven client (`errors.As` only matches Aiven errors)
or from the Kubernetes API. -/
structure Err where
  status : Nat
  msg : String
  fromAiven : Bool
deriving DecidableEq, Repr

/-- `fmt.Errorf("prefix: %w", e)`: the message is extended, while `errors.As`
still reaches the wrapped error, so the status and origin survive. -/
def wrapErr (pre : String) (e : Err) : Err :=
  { e with msg := pre ++ e.msg }

/-- `aiven.IsNotFound`: the error chain contains an Aiven error with status 404. -/
def aivenIsNotFound (e : Err) : Bool :=
  e.fromAiven && e.status == 404

/-- `apierrors.IsNotFound` on a Kubernetes API error. -/
def k8sIsNotFound (e : Err) : Bool :=
  !e.fromAiven && e.status == 404

/-- `client.IgnoreNotFound`. -/
def ignoreNotFound (e : Err) : Option Err :=
  if k8sIsNotFound e then none else some e

/-- Whether the second character list occurs at the head of the first. -/
def charsStartWith : List Char → List Char → Bool
  | _, [] => true
  | [], _ :: _ => false
  | a :: as, b :: bs => a == b && charsStartWith as bs

/-- Whether the second character list occurs anywhere inside the first. -/
def charsContain : List Char → List Char → Bool
  | [], pat => pat.isEmpty
  | a :: rest, pat => charsStartWith (a :: rest) pat || charsContain rest pat

/-- `strings.Contains`. -/
def goContains (s sub : String) : Bool :=
  charsContain s.data sub.data

/-- An event emitted to the recorder: warning or normal, with its reason code. -/
structure Ev where
  warning : Bool
  reason : String
deriving DecidableEq, Repr

def eventUnableToGetAuthSecret : String := "UnableToGetAuthSecret"
def eventUnableToCreateClient : String := "UnableToCreateClient"
def eventReconciliationStarted : String := "ReconcilationStarted"
def eventTryingToDeleteAtAiven : String := "TryingToDeleteAtAiven"
def eventUnableToDeleteAtAiven : String := "UnableToDeleteAtAiven"
def eventUnableToDeleteFinalizer : String := "UnableToDeleteFinalizer"
def eventSuccessfullyDeletedAtAiven : String := "SuccessfullyDeletedAtAiven"
def eventAddedFinalizer : String := "InstanceFinalizerAdded"
def eventUnableToAddFinalizer : String := "UnableToAddFinalizer"
def eventWaitingforPreconditions : String := "WaitingForPreconditions"
def eventUnableToWaitForPreconditions : String := "UnableToWaitForPreconditions"
def eventPreconditionsAreMet : String := "PreconditionsAreMet"
def eventUnableToCreateOrUpdateAtAiven : String := "UnableToCreateOrUpdateAtAiven"
def eventCreateOrUpdatedAtAiven : String := "CreateOrUpdatedAtAiven"
def eventCreatedOrUpdatedAtAiven : String := "CreatedOrUpdatedAtAiven"
def eventWaitingForTheInstanceToBeRunning : String := "WaitingForInstanceToBeRunning"
def eventUnableToWaitForInstanceToBeRunning : String := "UnableToWaitForInstanceToBeRunning"
def eventInstanceIsRunning : String := "InstanceIsRunning"

/-- One nanosecond-resolution second, as in Go's `time.Second`. -/
def second : Nat := 1000000000

/-- `requeueTimeout = 10 * time.Second`. -/
def requeueTimeout : Nat := 10 * second

/-- `ctrl.Result`. -/
structure CtrlResult where
  requeue : Bool
  requeueAfter : Nat
deriving DecidableEq, Repr

/-- The zero `ctrl.Result{}`. -/
def emptyResult : CtrlResult := ⟨false, 0⟩

/-- Modelled from the spec: the two well-known marker keys on the managed
object ("generation processed" and "instance running") live in the repository
outside the excerpted file; their exact string values are opaque tokens. -/
def processedGenerationKey : String := "controllers.aiven.io/generation-was-processed"

/-- Modelled from the spec: key of the "instance running" presence flag. -/
def instanceIsRunningKey : String := "controllers.aiven.io/instance-is-running"

/-- Modelled from the spec: name of the finalizer blocking object deletion
until remote cleanup completes. -/
def instanceDeletionFinalizer : String := "controllers.aiven.io/instance-deletion"

/-- Modelled from the spec: name of the finalizer protecting the credential
secret from deletion while in use. -/
def secretProtectionFinalizer : String := "controllers.aiven.io/secret-protection"

/-- The managed object as the engine sees it: generation counter, string
annotations, finalizer set, and the deletion mark. -/
structure Obj where
  generation : Int
  annotations : List (String × String)
  finalizers : List String
  markedForDeletion : Bool
deriving DecidableEq, Repr

/-- The credential secret object (only its finalizers matter to the engine). -/
structure SecretObj where
  finalizers : List String
deriving DecidableEq, Repr

/-- Lookup in the object's string-keyed metadata map. -/
def annLookup : List (String × String) → String → Option String
  | [], _ => none
  | p :: rest, k => if p.1 == k then some p.2 else annLookup rest k

/-- Go's `delete(map, key)`: drop every entry under the key. -/
def annErase : List (String × String) → String → List (String × String)
  | [], _ => []
  | p :: rest, k => if p.1 != k then p :: annErase rest k else annErase rest k

/-- `controllerutil.ContainsFinalizer`. -/
def containsFinalizer : List String → String → Bool
  | [], _ => false
  | a :: rest, f => a == f || containsFinalizer rest f

/-- `controllerutil.AddFinalizer`: appends the name when absent. -/
def addFinalizerTo (fs : List String) (f : String) : List String :=
  if containsFinalizer fs f then fs else fs ++ [f]

/-- `controllerutil.RemoveFinalizer`: filters the name out. -/
def removeFinalizerFrom : List String → String → List String
  | [], _ => []
  | a :: rest, f => if a != f then a :: removeFinalizerFrom rest f else removeFinalizerFrom rest f

/-- Modelled from the spec: the repository's `isMarkedForDeletion` helper is
outside the excerpted file; an object is marked for deletion when the store
has stamped its deletion timestamp. -/
def isMarkedForDeletion (o : Obj) : Bool :=
  o.markedForDeletion

/-- Modelled from the spec: the repository's `isAlreadyProcessed` helper is
outside the excerpted file.  Spec section 3: the "generation processed" marker
holds the last generation for which create/update succeeded, and a mismatch
between it and the object's current generation is the sole trigger for
re-issuing create/update — so the object counts as processed exactly when the
marker equals the current generation rendered in base 10. -/
def isAlreadyProcessed (o : Obj) : Bool :=
  annLookup o.annotations processedGenerationKey == some (toString o.generation)

/-- Modelled from the spec: the repository's `isAlreadyRunning` helper is
outside the excerpted file.  Spec section 3: "instance running" is a
presence-only flag. -/
def isAlreadyRunning (o : Obj) : Bool :=
  (annLookup o.annotations instanceIsRunningKey).isSome

/-- `instanceReconcilerHelper.canBeDeleted`: an erred deletion may proceed
only when no generation was processed, the instance never ran, and the error
text carries the invalid-token marker. -/
def canBeDeleted (o : Obj) (err : Option Err) : Bool :=
  match err with
  | none => true
  | some e =>
      !isAlreadyProcessed o && !isAlreadyRunning o &&
        goContains e.msg "Invalid token"

/-- Result of `Handlers.get`: the (possibly mutated) object, an optional
secret payload to materialize, and an optional error. -/
structure GetOut where
  o : Obj
  secret : Option String
  error : Option Err
deriving DecidableEq, Repr

/-- The `Handlers` interface: one implementation per resource kind, supplied
externally.  Methods receive the object by pointer in Go; mutation is made
explicit by returning the updated object.  `checkPreconditions` and `delete`
are modelled as non-mutating, matching the spec's handler contract. -/
structure Handler where
  checkPreconditions : Obj → Bool × Option Err
  createOrUpdate : Obj → Obj × Option Err
  delete : Obj → Bool × Option Err
  get : Obj → GetOut

/-- Outcomes of the Kubernetes persistence calls issued during one pass
(`addFinalizer`/`removeFinalizer` updates, `Status().Update`, `Update`, and
`createOrUpdateSecret`), resolved up front so the engine is a pure function. -/
structure Env where
  addSecretFinalizerErr : Option Err
  addInstanceFinalizerErr : Option Err
  removeInstanceFinalizerErr : Option Err
  statusUpdateErr : Option Err
  updateErr : Option Err
  createOrUpdateSecretErr : Option Err
deriving DecidableEq, Repr

/-- Observable calls the engine makes during a pass.  Handler calls carry the
object handed to the handler at that moment. -/
inductive Step where
  | callCheckPreconditions (o : Obj)
  | callCreateOrUpdate (o : Obj)
  | callGet (o : Obj)
  | callDelete (o : Obj)
  | persistInstanceFinalizer
deriving DecidableEq, Repr

/-- Whether a step is a handler invocation at the Aiven provider. -/
def Step.isCreateOrUpdateCall : Step → Bool
  | .callCreateOrUpdate _ => true
  | _ => false

/-- Whether a step is the `Handlers.delete` invocation. -/
def Step.isDeleteCall : Step → Bool
  | .callDelete _ => true
  | _ => false

/-- Whether a step is the `Handlers.get` invocation. -/
def Step.isGetCall : Step → Bool
  | .callGet _ => true
  | _ => false

/-- Outcome of one reconciliation pass: the returned `ctrl.Result` and error,
the persisted object and secret, the events emitted to the recorder, and the
trace of engine steps, each paired with whether the secret-protection
finalizer was (persisted as) present on the credential secret at that moment. -/
structure ReconOutcome where
  result : CtrlResult
  error : Option Err
  o : Obj
  s : SecretObj
  events : List Ev
  trace : List (Step × Bool)
deriving DecidableEq, Repr

/-- `instanceReconcilerHelper.finalize`: call `Handlers.delete`; surface the
error unless `canBeDeleted` excuses it; requeue while not finalised; otherwise
remove the instance-deletion finalizer (kept when the removal update fails). -/
def finalize (env : Env) (h : Handler) (o : Obj) (s : SecretObj) : ReconOutcome :=
  let prot := containsFinalizer s.finalizers secretProtectionFinalizer
  let (finalised, derr) := h.delete o
  let ev0 := [Ev.mk false eventTryingToDeleteAtAiven]
  let tr := [(Step.callDelete o, prot)]
  if derr.isSome && !canBeDeleted o derr then
    ⟨emptyResult, derr.map (wrapErr "unable to delete instance at aiven: "), o, s,
      ev0 ++ [Ev.mk true eventUnableToDeleteAtAiven], tr⟩
  else if !finalised then
    ⟨⟨true, requeueTimeout⟩, none, o, s, ev0, tr⟩
  else
    match env.removeInstanceFinalizerErr with
    | some e =>
        ⟨emptyResult, some (wrapErr "unable to remove finalizer: " e), o, s,
          ev0 ++ [Ev.mk false eventSuccessfullyDeletedAtAiven,
                  Ev.mk true eventUnableToDeleteFinalizer], tr⟩
    | none =>
        ⟨emptyResult, none,
          { o with finalizers := removeFinalizerFrom o.finalizers instanceDeletionFinalizer }, s,
          ev0 ++ [Ev.mk false eventSuccessfullyDeletedAtAiven], tr⟩

/-- Outcome of `instanceReconcilerHelper.checkPreconditions`. -/
structure PrecondOutcome where
  requeue : Bool
  result : CtrlResult
  error : Option Err
  events : List Ev
deriving DecidableEq, Repr

/-- `instanceReconcilerHelper.checkPreconditions`: handler error is surfaced;
an unmet precondition requeues after the fixed timeout with no error. -/
def checkPreconditionsStep (h : Handler) (o : Obj) : PrecondOutcome :=
  let (check, err) := h.checkPreconditions o
  let ev0 := [Ev.mk false eventWaitingforPreconditions]
  match err with
  | some e =>
      ⟨true, emptyResult, some (wrapErr "unable to wait for preconditions: " e),
        ev0 ++ [Ev.mk true eventUnableToWaitForPreconditions]⟩
  | none =>
      if !check then
        ⟨true, ⟨true, requeueTimeout⟩, none, ev0⟩
      else
        ⟨false, emptyResult, none, ev0 ++ [Ev.mk false eventPreconditionsAreMet]⟩

/-- Outcome of `instanceReconcilerHelper.createOrUpdateInstance`, instrumented
with `passedObj`, the object as it was handed to `Handlers.createOrUpdate`. -/
structure CoUOutcome where
  passedObj : Obj
  o : Obj
  error : Option Err
deriving DecidableEq, Repr

/-- `instanceReconcilerHelper.createOrUpdateInstance`: both progress markers
are deleted from the in-memory metadata map before the handler is called; a
handler failure is wrapped and surfaced. -/
def createOrUpdateInstance (h : Handler) (o : Obj) : CoUOutcome :=
  let a := annErase (annErase o.annotations processedGenerationKey) instanceIsRunningKey
  let oS := { o with annotations := a }
  let (o2, err) := h.createOrUpdate oS
  match err with
  | some e => ⟨oS, o2, some (wrapErr "unable to create or update aiven instance: " e)⟩
  | none => ⟨oS, o2, none⟩

/-- Outcome of `updateInstanceStateAndSecretUntilRunning`.  The Go function
declares unnamed results `(bool, error)` and a local `var err error`; the
deferred closure appends the `Status().Update` and `Update` errors to the
local `err` with multierror, but a deferred assignment to a local can never
change an unnamed result slot, so the value the caller receives is the one at
the `return` statement.  `retErr` is that returned value; `localCombined` is
the local multierror after the deferred appends, which is discarded. -/
structure RunCheck where
  isRunning : Bool
  retErr : Option Err
  statusUpdateAttempted : Bool
  updateAttempted : Bool
  localCombined : List Err
  o : Obj
deriving DecidableEq, Repr

/-- `instanceReconcilerHelper.updateInstanceStateAndSecretUntilRunning`:
read back via `Handlers.get`, materialize a returned secret, then report
`isAlreadyRunning`; the deferred status/object updates are both attempted on
every path but their errors only reach the discarded local variable. -/
def updateInstanceStateAndSecretUntilRunning (env : Env) (h : Handler) (o : Obj) : RunCheck :=
  let g := h.get o
  let deferred := env.statusUpdateErr.toList ++ env.updateErr.toList
  match g.error with
  | some e => ⟨false, some e, true, true, e :: deferred, g.o⟩
  | none =>
    match g.secret with
    | some _ =>
        match env.createOrUpdateSecretErr with
        | some e =>
            let w := wrapErr "unable to create or update aiven secret: " e
            ⟨false, some w, true, true, w :: deferred, g.o⟩
        | none => ⟨isAlreadyRunning g.o, none, true, true, deferred, g.o⟩
    | none => ⟨isAlreadyRunning g.o, none, true, true, deferred, g.o⟩

/-- Tail of `instanceReconcilerHelper.reconcileInstance` from the
waiting-to-be-running event on: a not-found read-back and a not-yet-running
read-back both requeue after the fixed timeout with no error. -/
def reconcilePollRunning (env : Env) (h : Handler) (o2 : Obj) (s1 : SecretObj)
    (ev : List Ev) (tr : List (Step × Bool)) (prot : Bool) : ReconOutcome :=
  let ev4 := ev ++ [Ev.mk false eventWaitingForTheInstanceToBeRunning]
  let rc := updateInstanceStateAndSecretUntilRunning env h o2
  let tr4 := tr ++ [(Step.callGet o2, prot)]
  match rc.retErr with
  | some e =>
      if aivenIsNotFound e then
        ⟨⟨true, requeueTimeout⟩, none, rc.o, s1, ev4, tr4⟩
      else
        ⟨emptyResult, some (wrapErr "unable to wait until instance is running: " e), rc.o, s1,
          ev4 ++ [Ev.mk true eventUnableToWaitForInstanceToBeRunning], tr4⟩
  | none =>
      if !rc.isRunning then
        ⟨⟨true, requeueTimeout⟩, none, rc.o, s1, ev4, tr4⟩
      else
        ⟨emptyResult, none, rc.o, s1, ev4 ++ [Ev.mk false eventInstanceIsRunning], tr4⟩

/-- Middle of `instanceReconcilerHelper.reconcileInstance`: the precondition
gate followed by the create-or-update dispatch, entered only when the
generation-processed marker mismatches the current generation. -/
def reconcileAfterBootstrap (env : Env) (h : Handler) (o1 : Obj) (s1 : SecretObj)
    (ev : List Ev) (tr : List (Step × Bool)) (prot : Bool) : ReconOutcome :=
  let pc := checkPreconditionsStep h o1
  let ev2 := ev ++ pc.events
  let tr2 := tr ++ [(Step.callCheckPreconditions o1, prot)]
  if pc.requeue then
    ⟨pc.result, pc.error, o1, s1, ev2, tr2⟩
  else
    if !isAlreadyProcessed o1 then
      let ev3 := ev2 ++ [Ev.mk false eventCreateOrUpdatedAtAiven]
      let cu := createOrUpdateInstance h o1
      let tr3 := tr2 ++ [(Step.callCreateOrUpdate cu.passedObj, prot)]
      match cu.error with
      | some e =>
          ⟨emptyResult, some (wrapErr "unable to create or update instance at aiven: " e), cu.o, s1,
            ev3 ++ [Ev.mk true eventUnableToCreateOrUpdateAtAiven], tr3⟩
      | none =>
          reconcilePollRunning env h cu.o s1
            (ev3 ++ [Ev.mk false eventCreatedOrUpdatedAtAiven]) tr3 prot
    else
      reconcilePollRunning env h o1 s1 ev2 tr2 prot

/-- `instanceReconcilerHelper.reconcileInstance`: deletion check, finalizer
bootstrap (secret protection first, then the instance-deletion finalizer),
then the precondition/create/poll phases. -/
def reconcileInstance (env : Env) (h : Handler) (o : Obj) (s : SecretObj) : ReconOutcome :=
  let ev0 := [Ev.mk false eventReconciliationStarted]
  if isMarkedForDeletion o then
    if containsFinalizer o.finalizers instanceDeletionFinalizer then
      let fo := finalize env h o s
      { fo with events := ev0 ++ fo.events }
    else
      ⟨emptyResult, none, o, s, ev0, []⟩
  else
    if !containsFinalizer s.finalizers secretProtectionFinalizer
        && env.addSecretFinalizerErr.isSome then
      ⟨emptyResult, env.addSecretFinalizerErr.map (wrapErr "unable to add finalizer to secret: "),
        o, s, ev0, []⟩
    else
      let s1 : SecretObj :=
        if containsFinalizer s.finalizers secretProtectionFinalizer then s
        else ⟨addFinalizerTo s.finalizers secretProtectionFinalizer⟩
      if !containsFinalizer o.finalizers instanceDeletionFinalizer
          && env.addInstanceFinalizerErr.isSome then
        ⟨emptyResult,
          env.addInstanceFinalizerErr.map (wrapErr "unable to add finalizer to instance: "),
          o, s1, ev0 ++ [Ev.mk true eventUnableToAddFinalizer], []⟩
      else
        let prot := containsFinalizer s1.finalizers secretProtectionFinalizer
        let added := !containsFinalizer o.finalizers instanceDeletionFinalizer
        let o1 : Obj := { o with finalizers := addFinalizerTo o.finalizers instanceDeletionFinalizer }
        let ev1 := ev0 ++ (if added then [Ev.mk false eventAddedFinalizer] else [])
        let tr1 : List (Step × Bool) :=
          if added then [(Step.persistInstanceFinalizer, prot)] else []
        reconcileAfterBootstrap env h o1 s1 ev1 tr1 prot

/-- Outcomes of the steps `Controller.reconcileInstance` performs before
handing over to the helper: fetching the object, fetching the credential
secret, and constructing the Aiven token client. -/
structure OuterEnv where
  getObjectErr : Option Err
  getSecretErr : Option Err
  newClientErr : Option Err
  env : Env
deriving Repr

/-- `Controller.reconcileInstance`: a missing object is ignored; a failure to
fetch the credential secret or to build the client emits a warning event and
aborts with the error before any mutation or handler call. -/
def controllerReconcileInstance (oe : OuterEnv) (h : Handler) (o : Obj) (s : SecretObj) :
    ReconOutcome :=
  match oe.getObjectErr with
  | some e => ⟨emptyResult, ignoreNotFound e, o, s, [], []⟩
  | none =>
    match oe.getSecretErr with
    | some e =>
        ⟨emptyResult, some (wrapErr "cannot get secret: " e), o, s,
          [Ev.mk true eventUnableToGetAuthSecret], []⟩
    | none =>
      match oe.newClientErr with
      | some e =>
          ⟨emptyResult, some (wrapErr "cannot initialize aiven client: " e), o, s,
            [Ev.mk true eventUnableToCreateClient], []⟩
      | none => reconcileInstance oe.env h o s

/-!
`UserConfigurationToAPI` walks a user-configuration structure by reflection.
The reflective value universe is embedded explicitly: a field holds either a
nil optional pointer, a present `*int64`/`*bool` (dereferenced by the
function's scalar switch), a present `*string` or a plain `string` (both fall
through the switch's default branch, which returns the value as is, so a
present `*string` stays boxed), or a pointer to a nested structure.
-/

/-- A field value of a user-configuration structure as the reflective walk in
`UserConfigurationToAPI` observes it. -/
inductive FieldVal where
  | nilPtr
  | int64Ptr (n : Int)
  | boolPtr (b : Bool)
  | strPtr (s : String)
  | strVal (s : String)
  | structPtr (fields : List (String × FieldVal))

/-- A Go `interface {}` value stored in the resulting map. -/
inductive GoVal where
  | vnilPtr
  | vint (n : Int)
  | vbool (b : Bool)
  | vstrPtr (s : String)
  | vstr (s : String)
  | vmap (entries : List (String × GoVal))

/-- The pruning predicate of `UserConfigurationToAPI`'s cleanup loop:
`val == nil || isNil(val) || val == ""` removes typed nil pointers and plain
empty strings, and the second check removes empty maps.  A present `*string`
pointing at an empty string is none of these. -/
def shouldPrune : GoVal → Bool
  | .vnilPtr => true
  | .vstr s => s == ""
  | .vmap entries => entries.isEmpty
  | _ => false

/-- The cleanup loop over the result map: drop every pruned key. -/
def pruneEntries (l : List (String × GoVal)) : List (String × GoVal) :=
  l.filter (fun p => !shouldPrune p.2)

mutual

/-- `UserConfigurationToAPI`: indirect a pointer, dereference `*int64` and
`*bool`, return any other non-struct value unchanged, and for a structure
build the field map recursively and prune it. -/
def UserConfigurationToAPI : FieldVal → GoVal
  | .nilPtr => .vnilPtr
  | .int64Ptr n => .vint n
  | .boolPtr b => .vbool b
  | .strPtr s => .vstrPtr s
  | .strVal s => .vstr s
  | .structPtr fields => .vmap (pruneEntries (flattenFields fields))

/-- The field loop of `UserConfigurationToAPI`: one map entry per field,
keyed by the json tag, valued by the recursive conversion. -/
def flattenFields : List (String × FieldVal) → List (String × GoVal)
  | [] => []
  | (n, v) :: rest => (n, UserConfigurationToAPI v) :: flattenFields rest

end

/-- A field that is a present optional scalar (`*int64`, `*bool`, `*string`). -/
def isPresentScalar : FieldVal → Bool
  | .int64Ptr _ => true
  | .boolPtr _ => true
  | .strPtr _ => true
  | _ => false

/-- The map value `UserConfigurationToAPI` produces for a present scalar. -/
def scalarImage : FieldVal → GoVal
  | .int64Ptr n => .vint n
  | .boolPtr b => .vbool b
  | .strPtr s => .vstrPtr s
  | _ => .vnilPtr

/-!
The `ServiceIntegrationHandler` of the second source file, for the
create-or-update path.  Only the provider calls are external: their outcomes
are resolved through an environment.
-/

/-- The `ServiceIntegration` object: its recorded remote identifier,
generation, string metadata and status conditions. -/
structure SIObj where
  statusID : String
  generation : Int
  annotations : List (String × String)
  conditions : List (String × String)
deriving DecidableEq, Repr

/-- An `aiven.ServiceIntegration` as returned by the provider client. -/
structure AivenServiceIntegration where
  serviceIntegrationID : String
deriving DecidableEq, Repr

/-- Outcomes of the provider calls `ServiceIntegrations.Create` and
`ServiceIntegrations.Update`. -/
structure SIEnv where
  createResult : Except Err AivenServiceIntegration
  updateResult : Except Err AivenServiceIntegration
deriving Repr

/-- What `ServiceIntegrationHandler.createOrUpdate` can come to: a returned
object, the `nil, nil` shortcut on an unchanged user config, an error, or a
nil-pointer dereference (a Go runtime panic). -/
inductive SIResult where
  | ok (si : SIObj)
  | okNil
  | err (e : Err)
  | panicNilDeref
deriving DecidableEq, Repr

/-- `meta.SetStatusCondition`: most-recent-wins upsert keyed by type. -/
def setCondition (conds : List (String × String)) (ctype status : String) :
    List (String × String) :=
  if (conds.find? (fun p => p.1 == ctype)).isSome then
    conds.map (fun p => if p.1 == ctype then (ctype, status) else p)
  else
    conds ++ [(ctype, status)]

/-- `metav1.SetMetaDataAnnotation`: upsert into the string metadata map. -/
def annSet (l : List (String × String)) (k v : String) : List (String × String) :=
  if (l.find? (fun p => p.1 == k)).isSome then
    l.map (fun p => if p.1 == k then (k, v) else p)
  else
    l ++ [(k, v)]

/-- The tail of `ServiceIntegrationHandler.createOrUpdate` after the
create/update branch: `si.Status.ID = integration.ServiceIntegrationID`
dereferences the local `integration` pointer, then the conditions and the
processed-generation marker are set. -/
def siFinish (si : SIObj) (integration : Option AivenServiceIntegration) : SIResult :=
  match integration with
  | none => .panicNilDeref
  | some it =>
      .ok { si with
        statusID := it.serviceIntegrationID,
        conditions := setCondition (setCondition si.conditions "Initialized" "True")
          "Running" "Unknown",
        annotations := annSet si.annotations processedGenerationKey (toString si.generation) }

/-- `ServiceIntegrationHandler.createOrUpdate`: with an empty recorded ID the
provider `Create` is called but its result is assigned to the blank
identifier, so the local `integration` pointer is still nil when the shared
tail runs; with a recorded ID, `Update` assigns it. -/
def siCreateOrUpdate (env : SIEnv) (si : SIObj) : SIResult :=
  let integrationStart : Option AivenServiceIntegration := none
  if si.statusID == "" then
    match env.createResult with
    | .error e => .err (wrapErr "cannot createOrUpdate service integration: " e)
    | .ok _ => siFinish si integrationStart
  else
    match env.updateResult with
    | .error e =>
        if goContains e.msg "user config not changed" then .okNil
        else .err e
    | .ok it => siFinish si (some it)

/-!  Concrete instances used by witnesses and counterexamples. -/

/-- A provider error whose text carries the invalid-credential marker. -/
def errInvalidToken : Err := ⟨403, "Invalid token", true⟩

/-- A provider not-found error, recognized by `aiven.IsNotFound`. -/
def errNotFoundAiven : Err := ⟨404, "service not found", true⟩

/-- A Kubernetes status-update failure. -/
def errStatusUpdate : Err := ⟨409, "status update conflict", false⟩

/-- A Kubernetes secret-fetch failure. -/
def errK8sGet : Err := ⟨500, "secret fetch failed", false⟩

/-- A generic provider-side failure. -/
def errBoom : Err := ⟨500, "server blew up", true⟩

/-- An environment in which every persistence call succeeds. -/
def envClean : Env := ⟨none, none, none, none, none, none⟩

/-- An environment in which only the status update fails. -/
def envStatusFail : Env := { envClean with statusUpdateErr := some errStatusUpdate }

/-- A credential secret without the protection finalizer. -/
def sNone : SecretObj := ⟨[]⟩

/-- A credential secret that already carries the protection finalizer. -/
def sProt : SecretObj := ⟨[secretProtectionFinalizer]⟩

/-- A handler for which every operation succeeds and `get` leaves the object
unchanged. -/
def hBase : Handler :=
  ⟨fun _ => (true, none), fun o => (o, none), fun _ => (true, none),
    fun o => ⟨o, none, none⟩⟩

/-- A handler whose `delete` fails with the invalid-token error and reports
not finalized. -/
def hDeleteFalseInvalidToken : Handler :=
  { hBase with delete := fun _ => (false, some errInvalidToken) }

/-- A handler reporting preconditions not met. -/
def hPrecondFalse : Handler :=
  { hBase with checkPreconditions := fun _ => (false, none) }

/-- A handler whose read-back reports the remote resource missing. -/
def hGetNotFound : Handler :=
  { hBase with get := fun o => ⟨o, none, some errNotFoundAiven⟩ }

/-- A handler whose `createOrUpdate` fails, leaving the object as given. -/
def hCreateFails : Handler :=
  { hBase with createOrUpdate := fun o => (o, some errBoom) }

/-- A freshly created object: generation 1, no markers, no finalizers. -/
def oFresh : Obj := ⟨1, [], [], false⟩

/-- An object processed at its current generation and marked running. -/
def oProcessedRunning : Obj :=
  ⟨1, [(processedGenerationKey, "1"), (instanceIsRunningKey, "1")],
    [instanceDeletionFinalizer], false⟩

/-- An object processed at its current generation but not yet running. -/
def oProcessedNotRunning : Obj :=
  ⟨1, [(processedGenerationKey, "1")], [instanceDeletionFinalizer], false⟩

/-- A never-processed, never-running object marked for deletion with the
deletion finalizer present. -/
def oDeleting : Obj := ⟨1, [], [instanceDeletionFinalizer], true⟩

/-- A deletion-marked object whose processed-generation marker is set but
stale: generation 1 was processed, the spec has since moved to generation 2. -/
def oStaleProcessed : Obj :=
  ⟨2, [(processedGenerationKey, "1")], [instanceDeletionFinalizer], true⟩

/-- The `ServiceIntegration` object of a first reconciliation: no recorded ID. -/
def siNew : SIObj := ⟨"", 1, [], []⟩

/-- A `ServiceIntegration` object with a recorded remote ID. -/
def siOld : SIObj := ⟨"old-id", 1, [], []⟩

/-- The integration record the provider returns. -/
def siIntegrationCreated : AivenServiceIntegration := ⟨"svc-int-42"⟩

/-- Provider environment in which create and update both succeed. -/
def siEnvOk : SIEnv := ⟨.ok siIntegrationCreated, .ok siIntegrationCreated⟩

/-- The recorded ID of a successful `createOrUpdate` outcome. -/
def siResultStatusID : SIResult → Option String
  | .ok si => some si.statusID
  | _ => none

/-!  Helper lemmas shared by the claim theorems. -/

theorem annLookup_annErase_self (l : List (String × String)) (k : String) :
    annLookup (annErase l k) k = none := by
  induction l with
  | nil => rfl
  | cons p rest ih =>
      by_cases h : p.1 = k
      · simpa [annErase, h] using ih
      · simpa [annErase, annLookup, h] using ih

theorem annLookup_annErase_ne (l : List (String × String)) (k k2 : String) (hne : k ≠ k2) :
    annLookup (annErase l k2) k = annLookup l k := by
  induction l with
  | nil => rfl
  | cons p rest ih =>
      have h2 : k2 ≠ k := fun hh => hne hh.symm
      by_cases h : p.1 = k2
      · have hpk : p.1 ≠ k := fun hh => hne ((hh ▸ h) ▸ rfl)
        simpa [annErase, annLookup, h, hpk, h2] using ih
      · by_cases hpk : p.1 = k
        · simp [annErase, annLookup, h, hpk, h2, hne]
        · simpa [annErase, annLookup, h, hpk, h2, hne] using ih

theorem contains_append_single_self (fs : List String) (f : String) :
    containsFinalizer (fs ++ [f]) f = true := by
  induction fs with
  | nil => simp [containsFinalizer]
  | cons a rest ih => simp [containsFinalizer, ih]

theorem contains_addFinalizerTo_self (fs : List String) (f : String) :
    containsFinalizer (addFinalizerTo fs f) f = true := by
  unfold addFinalizerTo
  split
  · assumption
  · exact contains_append_single_self fs f

theorem contains_removeFinalizerFrom_self (fs : List String) (f : String) :
    containsFinalizer (removeFinalizerFrom fs f) f = false := by
  induction fs with
  | nil => rfl
  | cons a rest ih =>
      by_cases h : a = f
      · simpa [removeFinalizerFrom, h] using ih
      · simpa [removeFinalizerFrom, containsFinalizer, h] using ih

theorem reconcilePollRunning_trace (env : Env) (h : Handler) (o2 : Obj) (s1 : SecretObj)
    (ev : List Ev) (tr : List (Step × Bool)) (prot : Bool) :
    (reconcilePollRunning env h o2 s1 ev tr prot).trace = tr ++ [(Step.callGet o2, prot)] := by
  unfold reconcilePollRunning
  dsimp only
  split <;> first | rfl | (split <;> rfl)

theorem finalize_trace (env : Env) (h : Handler) (o : Obj) (s : SecretObj) :
    (finalize env h o s).trace =
      [(Step.callDelete o, containsFinalizer s.finalizers secretProtectionFinalizer)] := by
  unfold finalize
  repeat' split
  all_goals rfl

theorem reconcileAfterBootstrap_no_createOrUpdate (env : Env) (h : Handler) (o1 : Obj)
    (s1 : SecretObj) (ev : List Ev) (tr : List (Step × Bool)) (prot : Bool)
    (hproc : isAlreadyProcessed o1 = true)
    (htr : tr.all (fun p => !p.1.isCreateOrUpdateCall) = true) :
    (reconcileAfterBootstrap env h o1 s1 ev tr prot).trace.all
      (fun p => !p.1.isCreateOrUpdateCall) = true := by
  unfold reconcileAfterBootstrap
  dsimp only
  split
  · rw [List.all_append, htr]
    simp [Step.isCreateOrUpdateCall]
  · simp only [hproc, Bool.not_true, Bool.false_eq_true, if_false, ite_false]
    rw [reconcilePollRunning_trace, List.all_append, List.all_append, htr]
    simp [Step.isCreateOrUpdateCall]

theorem reconcileAfterBootstrap_snapshots (env : Env) (h : Handler) (o1 : Obj)
    (s1 : SecretObj) (ev : List Ev) (tr : List (Step × Bool)) (prot : Bool)
    (hp : prot = true) (htr : tr.all (fun p => p.2) = true) :
    (reconcileAfterBootstrap env h o1 s1 ev tr prot).trace.all (fun p => p.2) = true := by
  unfold reconcileAfterBootstrap
  dsimp only
  split
  · rw [List.all_append, htr]
    simp [hp]
  · split
    · split
      · rw [List.all_append, List.all_append, htr]
        simp [hp]
      · rw [reconcilePollRunning_trace, List.all_append, List.all_append, List.all_append, htr]
        simp [hp]
    · rw [reconcilePollRunning_trace, List.all_append, List.all_append, htr]
      simp [hp]

theorem flattenFields_append (a b : List (String × FieldVal)) :
    flattenFields (a ++ b) = flattenFields a ++ flattenFields b := by
  induction a with
  | nil => rfl
  | cons p rest ih =>
      rcases p with ⟨n, v⟩
      simp [flattenFields, ih]

theorem pruneEntries_append (a b : List (String × GoVal)) :
    pruneEntries (a ++ b) = pruneEntries a ++ pruneEntries b := by
  simp [pruneEntries, List.filter_append]

theorem pruneEntries_flattenFields_unset (fs : List (String × FieldVal))
    (hall : ∀ p ∈ fs, p.2 = FieldVal.nilPtr) :
    pruneEntries (flattenFields fs) = [] := by
  induction fs with
  | nil => rfl
  | cons p rest ih =>
      rcases p with ⟨n, v⟩
      have hv : v = FieldVal.nilPtr := hall (n, v) (List.mem_cons_self _ _)
      subst hv
      simp only [flattenFields, UserConfigurationToAPI, pruneEntries, List.filter_cons,
        shouldPrune, Bool.not_true]
      simpa [pruneEntries] using ih (fun q hq => hall q (List.mem_cons_of_mem _ hq))

theorem scalar_image_eq (v : FieldVal) (hv : isPresentScalar v = true) :
    UserConfigurationToAPI v = scalarImage v := by
  cases v <;> first | rfl | exact absurd hv (by simp [isPresentScalar])

theorem scalar_image_not_pruned (v : FieldVal) (hv : isPresentScalar v = true) :
    shouldPrune (scalarImage v) = false := by
  cases v <;> first | rfl | exact absurd hv (by simp [isPresentScalar])

theorem shouldPrune_false_iff (gv : GoVal) :
    (!shouldPrune gv) = true ↔
      ¬(gv = GoVal.vnilPtr ∨ gv = GoVal.vstr "" ∨ gv = GoVal.vmap []) := by
  cases gv <;> simp [shouldPrune, List.isEmpty_iff]

theorem finalize_removes_iff (env : Env) (h : Handler) (o : Obj) (s : SecretObj)
    (hf : containsFinalizer o.finalizers instanceDeletionFinalizer = true)
    (hrm : env.removeInstanceFinalizerErr = none) :
    (containsFinalizer (finalize env h o s).o.finalizers instanceDeletionFinalizer = false ↔
      ((h.delete o).1 = true ∧
        ((h.delete o).2 = none ∨ canBeDeleted o (h.delete o).2 = true))) := by
  unfold finalize
  dsimp only
  rcases hd : h.delete o with ⟨fin, derr⟩
  simp only [hd]
  rcases derr with _ | e
  · cases fin
    · simp [hf]
    · simp [hrm, contains_removeFinalizerFrom_self]
  · by_cases hcd : canBeDeleted o (some e) = true
    · cases fin
      · simp [hcd, hf]
      · simp [hcd, hrm, contains_removeFinalizerFrom_self]
    · simp only [Bool.not_eq_true] at hcd
      cases fin <;> simp [hcd, hf]

/-!  Claim theorems. -/

/-- C1 counterexample: for a never-processed, never-running object marked for
deletion with the deletion finalizer present, whose handler's delete reports
not-finalized together with an invalid-token error, the forced-removal
exception applies, yet the engine leaves the finalizer in place (it requeues
instead): the claimed equivalence "removed iff finalized or exception" fails
at this input. -/
theorem c1_counterexample :
    ¬ (containsFinalizer
          (reconcileInstance envClean hDeleteFalseInvalidToken oDeleting sNone).o.finalizers
          instanceDeletionFinalizer = false ↔
        ((hDeleteFalseInvalidToken.delete oDeleting).1 = true ∨
          canBeDeleted oDeleting (hDeleteFalseInvalidToken.delete oDeleting).2 = true)) := by
  decide

/-- C1 (amended): for every object marked for deletion with the deletion
finalizer present, reconcile invokes the handler's delete; provided the
finalizer-removal update itself persists, the deletion finalizer is removed
if and only if delete reports finalized=true and, in case delete also
returned an error, the forced-removal exception (`canBeDeleted`) applies. -/
theorem c1_deletion_finalizer_removed_iff :
    ∀ (env : Env) (h : Handler) (o : Obj) (s : SecretObj),
      isMarkedForDeletion o = true →
      containsFinalizer o.finalizers instanceDeletionFinalizer = true →
      env.removeInstanceFinalizerErr = none →
      ((reconcileInstance env h o s).trace.any (fun p => p.1.isDeleteCall) = true ∧
        (containsFinalizer (reconcileInstance env h o s).o.finalizers
            instanceDeletionFinalizer = false ↔
          ((h.delete o).1 = true ∧
            ((h.delete o).2 = none ∨ canBeDeleted o (h.delete o).2 = true)))) := by
  intro env h o s hm hf hrm
  have hobj : (reconcileInstance env h o s).o = (finalize env h o s).o := by
    unfold reconcileInstance
    dsimp only
    simp [hm, hf]
  have htrace : (reconcileInstance env h o s).trace = (finalize env h o s).trace := by
    unfold reconcileInstance
    dsimp only
    simp [hm, hf]
  constructor
  · rw [htrace, finalize_trace]
    simp [Step.isDeleteCall]
  · rw [hobj]
    exact finalize_removes_iff env h o s hf hrm

/-- C1 witness: the amended characterization applied at the counterexample's
input. -/
theorem c1_witness :
    isMarkedForDeletion oDeleting = true ∧
    containsFinalizer oDeleting.finalizers instanceDeletionFinalizer = true ∧
    envClean.removeInstanceFinalizerErr = none ∧
    ((reconcileInstance envClean hDeleteFalseInvalidToken oDeleting sNone).trace.any
        (fun p => p.1.isDeleteCall) = true ∧
      (containsFinalizer
          (reconcileInstance envClean hDeleteFalseInvalidToken oDeleting sNone).o.finalizers
          instanceDeletionFinalizer = false ↔
        ((hDeleteFalseInvalidToken.delete oDeleting).1 = true ∧
          ((hDeleteFalseInvalidToken.delete oDeleting).2 = none ∨
            canBeDeleted oDeleting (hDeleteFalseInvalidToken.delete oDeleting).2 = true)))) :=
  ⟨by decide, by decide, rfl,
    c1_deletion_finalizer_removed_iff envClean hDeleteFalseInvalidToken oDeleting sNone
      (by decide) (by decide) rfl⟩

/-- C2: the two persistence attempts at the end of the running-check phase
are both attempted and their errors are combined into the deferred local
multierror, but because the Go function's result parameters are unnamed the
combined error never reaches the caller: with a failing status update the
function still returns a nil error, and in general the returned error is
independent of the status-update and object-update outcomes. -/
theorem c2_persistence_failure_not_surfaced :
    (updateInstanceStateAndSecretUntilRunning envStatusFail hBase
        oProcessedRunning).statusUpdateAttempted = true ∧
    (updateInstanceStateAndSecretUntilRunning envStatusFail hBase
        oProcessedRunning).updateAttempted = true ∧
    (updateInstanceStateAndSecretUntilRunning envStatusFail hBase
        oProcessedRunning).localCombined = [errStatusUpdate] ∧
    (updateInstanceStateAndSecretUntilRunning envStatusFail hBase
        oProcessedRunning).retErr = none ∧
    (∀ (env : Env) (h : Handler) (o : Obj),
      (updateInstanceStateAndSecretUntilRunning env h o).retErr =
        (updateInstanceStateAndSecretUntilRunning
          { env with statusUpdateErr := none, updateErr := none } h o).retErr) := by
  refine ⟨rfl, rfl, rfl, rfl, ?_⟩
  intro env h o
  unfold updateInstanceStateAndSecretUntilRunning
  dsimp only
  rcases hg : (h.get o).error with _ | e
  · rcases hs : (h.get o).secret with _ | sec
    · simp [hg, hs]
    · rcases hc : env.createOrUpdateSecretErr with _ | ce <;> simp [hg, hs, hc]
  · simp [hg]

/-- C10: on the create path (`Status.ID` empty) the provider `Create` result
is discarded, so the following dereference of the local `integration` pointer
is a nil-pointer dereference even though `Create` succeeded; the update path
records the returned identifier, and a create failure is returned as an
error before the dereference. -/
theorem c10_create_path_nil_deref :
    siCreateOrUpdate siEnvOk siNew = SIResult.panicNilDeref ∧
    siResultStatusID (siCreateOrUpdate siEnvOk siOld) = some "svc-int-42" ∧
    siCreateOrUpdate { siEnvOk with createResult := Except.error errBoom } siNew =
      SIResult.err (wrapErr "cannot createOrUpdate service integration: " errBoom) :=
  ⟨rfl, rfl, rfl⟩

/-- C6 counterexample: an object whose generation-processed marker is set but
stale (generation 1 was processed, the object is now at generation 2) still
qualifies for forced removal on an invalid-token delete failure, because
`canBeDeleted` checks equality with the current generation, not presence. -/
theorem c6_counterexample :
    (annLookup oStaleProcessed.annotations processedGenerationKey).isSome = true ∧
    canBeDeleted oStaleProcessed (some errInvalidToken) = true := by
  decide

/-- C6 (amended): an object whose generation-processed marker equals its
current generation never qualifies for forced removal: `canBeDeleted` returns
false on every delete failure for such an object, whatever the error text. -/
theorem c6_processed_blocks_forced_removal :
    ∀ (o : Obj) (e : Err),
      isAlreadyProcessed o = true → canBeDeleted o (some e) = false := by
  intro o e hp
  simp [canBeDeleted, hp]

/-- C6 witness: the amended claim applied to an object processed at its
current generation, with the invalid-token error. -/
theorem c6_witness :
    isAlreadyProcessed oProcessedRunning = true ∧
    canBeDeleted oProcessedRunning (some errInvalidToken) = false :=
  ⟨by decide, c6_processed_blocks_forced_removal oProcessedRunning errInvalidToken (by decide)⟩

/-- C3: an object whose generation-processed marker equals its current
generation never triggers `Handlers.createOrUpdate` during a pass (whatever
the environment, handler and secret), and conversely, for a live object with
a mismatching marker, successful finalizer bootstrap and met preconditions,
the pass does invoke `Handlers.createOrUpdate`. -/
theorem c3_processed_generation_skips_createOrUpdate :
    (∀ (env : Env) (h : Handler) (o : Obj) (s : SecretObj),
      isAlreadyProcessed o = true →
      (reconcileInstance env h o s).trace.all (fun p => !p.1.isCreateOrUpdateCall) = true) ∧
    (∀ (env : Env) (h : Handler) (o : Obj) (s : SecretObj),
      isMarkedForDeletion o = false →
      env.addSecretFinalizerErr = none →
      env.addInstanceFinalizerErr = none →
      (∀ x, h.checkPreconditions x = (true, none)) →
      isAlreadyProcessed o = false →
      (reconcileInstance env h o s).trace.any (fun p => p.1.isCreateOrUpdateCall) = true) := by
  constructor
  · intro env h o s hproc
    unfold reconcileInstance
    dsimp only
    by_cases hm : isMarkedForDeletion o
    · by_cases hfin : containsFinalizer o.finalizers instanceDeletionFinalizer
      · simp [hm, hfin, finalize_trace, Step.isCreateOrUpdateCall]
      · simp [hm, hfin]
    · simp only [hm, Bool.false_eq_true, if_false, ite_false]
      by_cases hsf : (!containsFinalizer s.finalizers secretProtectionFinalizer
          && env.addSecretFinalizerErr.isSome) = true
      · simp [hsf]
      · simp only [hsf, Bool.false_eq_true, if_false, ite_false]
        by_cases hif : (!containsFinalizer o.finalizers instanceDeletionFinalizer
            && env.addInstanceFinalizerErr.isSome) = true
        · simp [hif]
        · simp only [hif, Bool.false_eq_true, if_false, ite_false]
          apply reconcileAfterBootstrap_no_createOrUpdate
          · exact hproc
          · by_cases hadd : containsFinalizer o.finalizers instanceDeletionFinalizer <;>
              simp [hadd, Step.isCreateOrUpdateCall]
  · intro env h o s hm hse hie hpre hproc
    have hproc1 : isAlreadyProcessed
        { o with finalizers := addFinalizerTo o.finalizers instanceDeletionFinalizer } = false :=
      hproc
    unfold reconcileInstance
    dsimp only
    simp only [hm, Bool.false_eq_true, if_false, ite_false, hse, hie, Option.isSome_none,
      Bool.and_false]
    unfold reconcileAfterBootstrap
    dsimp only
    have hpc : checkPreconditionsStep h
        { o with finalizers := addFinalizerTo o.finalizers instanceDeletionFinalizer } =
        ⟨false, emptyResult, none,
          [Ev.mk false eventWaitingforPreconditions, Ev.mk false eventPreconditionsAreMet]⟩ := by
      unfold checkPreconditionsStep
      rw [hpre]
      rfl
    rw [hpc]
    dsimp only
    split
    · next hq => exact Bool.noConfusion hq
    · split
      · split
        · simp [List.any_append, Step.isCreateOrUpdateCall]
        · rw [reconcilePollRunning_trace]
          simp [List.any_append, Step.isCreateOrUpdateCall]
      · next hfalse =>
          rw [hproc1] at hfalse
          exact (hfalse rfl).elim

/-- C3 witness: a processed-at-current-generation object yields a trace with
no create-or-update call; a fresh object yields a trace containing one. -/
theorem c3_witness :
    isAlreadyProcessed oProcessedRunning = true ∧
    (reconcileInstance envClean hBase oProcessedRunning sProt).trace.all
      (fun p => !p.1.isCreateOrUpdateCall) = true ∧
    isAlreadyProcessed oFresh = false ∧
    (reconcileInstance envClean hBase oFresh sNone).trace.any
      (fun p => p.1.isCreateOrUpdateCall) = true :=
  ⟨by decide,
    c3_processed_generation_skips_createOrUpdate.1 envClean hBase oProcessedRunning sProt
      (by decide),
    by decide,
    c3_processed_generation_skips_createOrUpdate.2 envClean hBase oFresh sNone
      (by decide) rfl rfl (fun _ => rfl) (by decide)⟩

/-- C8: on every pass over an object not marked for deletion, each recorded
engine step — every handler invocation and the instance-finalizer persist —
happens with the secret-protection finalizer already present on the credential
secret; in particular the secret-protection finalizer is established before
the instance-deletion finalizer and before any provider call. -/
theorem c8_secret_protection_first :
    ∀ (env : Env) (h : Handler) (o : Obj) (s : SecretObj),
      isMarkedForDeletion o = false →
      (reconcileInstance env h o s).trace.all (fun p => p.2) = true := by
  intro env h o s hm
  unfold reconcileInstance
  dsimp only
  simp only [hm, Bool.false_eq_true, if_false, ite_false]
  by_cases hsf : (!containsFinalizer s.finalizers secretProtectionFinalizer
      && env.addSecretFinalizerErr.isSome) = true
  · simp [hsf]
  · simp only [hsf, Bool.false_eq_true, if_false, ite_false]
    by_cases hif : (!containsFinalizer o.finalizers instanceDeletionFinalizer
        && env.addInstanceFinalizerErr.isSome) = true
    · simp [hif]
    · simp only [hif, Bool.false_eq_true, if_false, ite_false]
      have hp : containsFinalizer
          (if containsFinalizer s.finalizers secretProtectionFinalizer then s
            else SecretObj.mk (addFinalizerTo s.finalizers secretProtectionFinalizer)).finalizers
          secretProtectionFinalizer = true := by
        by_cases hcs : containsFinalizer s.finalizers secretProtectionFinalizer
        · simp [hcs]
        · simp [hcs, contains_addFinalizerTo_self]
      apply reconcileAfterBootstrap_snapshots
      · exact hp
      · by_cases hadd : containsFinalizer o.finalizers instanceDeletionFinalizer <;>
          simp [hadd, hp]

/-- C8 witness: the snapshot property applied to a fresh object and a secret
without the protection finalizer. -/
theorem c8_witness :
    isMarkedForDeletion oFresh = false ∧
    (reconcileInstance envClean hBase oFresh sNone).trace.all (fun p => p.2) = true :=
  ⟨by decide, c8_secret_protection_first envClean hBase oFresh sNone (by decide)⟩

/-- C4: the three outcomes — preconditions not met, `Handlers.get` reporting
the remote resource not found, and a read-back that is not yet running — each
make the pass return a requeue directive with the one fixed interval
(`requeueTimeout`, ten seconds) and a nil error; in particular a provider
not-found result is never surfaced as an error. -/
theorem c4_fixed_requeue_interval :
    requeueTimeout = 10 * second ∧
    (∀ (env : Env) (h : Handler) (o : Obj) (s : SecretObj),
      isMarkedForDeletion o = false →
      env.addSecretFinalizerErr = none →
      env.addInstanceFinalizerErr = none →
      (∀ x, h.checkPreconditions x = (false, none)) →
      (reconcileInstance env h o s).result = ⟨true, requeueTimeout⟩ ∧
        (reconcileInstance env h o s).error = none) ∧
    (∀ (env : Env) (h : Handler) (o : Obj) (s : SecretObj) (e : Err),
      isMarkedForDeletion o = false →
      env.addSecretFinalizerErr = none →
      env.addInstanceFinalizerErr = none →
      (∀ x, h.checkPreconditions x = (true, none)) →
      isAlreadyProcessed o = true →
      aivenIsNotFound e = true →
      (∀ x, h.get x = ⟨x, none, some e⟩) →
      (reconcileInstance env h o s).result = ⟨true, requeueTimeout⟩ ∧
        (reconcileInstance env h o s).error = none) ∧
    (∀ (env : Env) (h : Handler) (o : Obj) (s : SecretObj),
      isMarkedForDeletion o = false →
      env.addSecretFinalizerErr = none →
      env.addInstanceFinalizerErr = none →
      (∀ x, h.checkPreconditions x = (true, none)) →
      isAlreadyProcessed o = true →
      isAlreadyRunning o = false →
      (∀ x, h.get x = ⟨x, none, none⟩) →
      (reconcileInstance env h o s).result = ⟨true, requeueTimeout⟩ ∧
        (reconcileInstance env h o s).error = none) := by
  refine ⟨rfl, ?_, ?_, ?_⟩
  · intro env h o s hm hse hie hpre
    unfold reconcileInstance
    dsimp only
    simp only [hm, Bool.false_eq_true, if_false, ite_false, hse, hie, Option.isSome_none,
      Bool.and_false]
    unfold reconcileAfterBootstrap
    dsimp only
    have hpc : checkPreconditionsStep h
        { o with finalizers := addFinalizerTo o.finalizers instanceDeletionFinalizer } =
        ⟨true, ⟨true, requeueTimeout⟩, none, [Ev.mk false eventWaitingforPreconditions]⟩ := by
      unfold checkPreconditionsStep
      rw [hpre]
      rfl
    rw [hpc]
    dsimp only
    split
    · exact ⟨rfl, rfl⟩
    · next hq => exact absurd rfl hq
  · intro env h o s e hm hse hie hpre hproc he hget
    have hproc1 : isAlreadyProcessed
        { o with finalizers := addFinalizerTo o.finalizers instanceDeletionFinalizer } = true :=
      hproc
    unfold reconcileInstance
    dsimp only
    simp only [hm, Bool.false_eq_true, if_false, ite_false, hse, hie, Option.isSome_none,
      Bool.and_false]
    unfold reconcileAfterBootstrap
    dsimp only
    have hpc : checkPreconditionsStep h
        { o with finalizers := addFinalizerTo o.finalizers instanceDeletionFinalizer } =
        ⟨false, emptyResult, none,
          [Ev.mk false eventWaitingforPreconditions, Ev.mk false eventPreconditionsAreMet]⟩ := by
      unfold checkPreconditionsStep
      rw [hpre]
      rfl
    rw [hpc]
    dsimp only
    split
    · next hq => exact Bool.noConfusion hq
    · split
      · next hq =>
          rw [hproc1] at hq
          exact Bool.noConfusion hq
      · unfold reconcilePollRunning
        dsimp only
        have hrc : updateInstanceStateAndSecretUntilRunning env h
            { o with finalizers := addFinalizerTo o.finalizers instanceDeletionFinalizer } =
            ⟨false, some e, true, true,
              e :: (env.statusUpdateErr.toList ++ env.updateErr.toList),
              { o with finalizers := addFinalizerTo o.finalizers instanceDeletionFinalizer }⟩ := by
          unfold updateInstanceStateAndSecretUntilRunning
          rw [hget]
        rw [hrc]
        dsimp only
        split
        · exact ⟨rfl, rfl⟩
        · next hq =>
            rw [he] at hq
            exact absurd rfl hq
  · intro env h o s hm hse hie hpre hproc hrun hget
    have hproc1 : isAlreadyProcessed
        { o with finalizers := addFinalizerTo o.finalizers instanceDeletionFinalizer } = true :=
      hproc
    have hrun1 : isAlreadyRunning
        { o with finalizers := addFinalizerTo o.finalizers instanceDeletionFinalizer } = false :=
      hrun
    unfold reconcileInstance
    dsimp only
    simp only [hm, Bool.false_eq_true, if_false, ite_false, hse, hie, Option.isSome_none,
      Bool.and_false]
    unfold reconcileAfterBootstrap
    dsimp only
    have hpc : checkPreconditionsStep h
        { o with finalizers := addFinalizerTo o.finalizers instanceDeletionFinalizer } =
        ⟨false, emptyResult, none,
          [Ev.mk false eventWaitingforPreconditions, Ev.mk false eventPreconditionsAreMet]⟩ := by
      unfold checkPreconditionsStep
      rw [hpre]
      rfl
    rw [hpc]
    dsimp only
    split
    · next hq => exact Bool.noConfusion hq
    · split
      · next hq =>
          rw [hproc1] at hq
          exact Bool.noConfusion hq
      · unfold reconcilePollRunning
        dsimp only
        have hrc : updateInstanceStateAndSecretUntilRunning env h
            { o with finalizers := addFinalizerTo o.finalizers instanceDeletionFinalizer } =
            ⟨isAlreadyRunning
                { o with finalizers := addFinalizerTo o.finalizers instanceDeletionFinalizer },
              none, true, true, env.statusUpdateErr.toList ++ env.updateErr.toList,
              { o with finalizers := addFinalizerTo o.finalizers instanceDeletionFinalizer }⟩ := by
          unfold updateInstanceStateAndSecretUntilRunning
          rw [hget]
        rw [hrc]
        dsimp only
        split
        · exact ⟨rfl, rfl⟩
        · next hq =>
            rw [hrun1] at hq
            exact absurd rfl hq

/-- C4 witness: the three requeue outcomes instantiated with concrete
handlers and objects. -/
theorem c4_witness :
    ((reconcileInstance envClean hPrecondFalse oFresh sNone).result =
        ⟨true, requeueTimeout⟩ ∧
      (reconcileInstance envClean hPrecondFalse oFresh sNone).error = none) ∧
    ((reconcileInstance envClean hGetNotFound oProcessedRunning sProt).result =
        ⟨true, requeueTimeout⟩ ∧
      (reconcileInstance envClean hGetNotFound oProcessedRunning sProt).error = none) ∧
    ((reconcileInstance envClean hBase oProcessedNotRunning sProt).result =
        ⟨true, requeueTimeout⟩ ∧
      (reconcileInstance envClean hBase oProcessedNotRunning sProt).error = none) :=
  ⟨c4_fixed_requeue_interval.2.1 envClean hPrecondFalse oFresh sNone
      (by decide) rfl rfl (fun _ => rfl),
    c4_fixed_requeue_interval.2.2.1 envClean hGetNotFound oProcessedRunning sProt errNotFoundAiven
      (by decide) rfl rfl (fun _ => rfl) (by decide) (by decide) (fun _ => rfl),
    c4_fixed_requeue_interval.2.2.2 envClean hBase oProcessedNotRunning sProt
      (by decide) rfl rfl (fun _ => rfl) (by decide) (by decide) (fun _ => rfl)⟩

theorem createOrUpdateInstance_passedObj (h : Handler) (o : Obj) :
    (createOrUpdateInstance h o).passedObj =
      { o with annotations :=
          annErase (annErase o.annotations processedGenerationKey) instanceIsRunningKey } := by
  unfold createOrUpdateInstance
  dsimp only
  cases (h.createOrUpdate { o with annotations := annErase (annErase o.annotations processedGenerationKey) instanceIsRunningKey }).2 <;> rfl

/-- C5: the object handed to `Handlers.createOrUpdate` always has both the
generation-processed and instance-running markers stripped; and when the
handler call fails (leaving the object as it received it), the pass aborts
with the error surfaced, makes no read-back call, and the resulting object
still carries neither marker. -/
theorem c5_markers_stripped_before_createOrUpdate :
    (∀ (h : Handler) (o : Obj),
      annLookup (createOrUpdateInstance h o).passedObj.annotations processedGenerationKey =
          none ∧
        annLookup (createOrUpdateInstance h o).passedObj.annotations instanceIsRunningKey =
          none) ∧
    (∀ (env : Env) (h : Handler) (o : Obj) (s : SecretObj) (e : Err),
      isMarkedForDeletion o = false →
      env.addSecretFinalizerErr = none →
      env.addInstanceFinalizerErr = none →
      (∀ x, h.checkPreconditions x = (true, none)) →
      isAlreadyProcessed o = false →
      (∀ x, h.createOrUpdate x = (x, some e)) →
      (reconcileInstance env h o s).error.isSome = true ∧
        (reconcileInstance env h o s).trace.all (fun p => !p.1.isGetCall) = true ∧
        annLookup (reconcileInstance env h o s).o.annotations processedGenerationKey = none ∧
        annLookup (reconcileInstance env h o s).o.annotations instanceIsRunningKey = none) := by
  have hne : processedGenerationKey ≠ instanceIsRunningKey := by decide
  constructor
  · intro h o
    rw [createOrUpdateInstance_passedObj]
    dsimp only
    constructor
    · rw [annLookup_annErase_ne _ _ _ hne, annLookup_annErase_self]
    · rw [annLookup_annErase_self]
  · intro env h o s e hm hse hie hpre hproc hfail
    have hproc1 : isAlreadyProcessed
        { o with finalizers := addFinalizerTo o.finalizers instanceDeletionFinalizer } = false :=
      hproc
    have hcu : createOrUpdateInstance h
        { o with finalizers := addFinalizerTo o.finalizers instanceDeletionFinalizer } =
        ⟨{ o with
            finalizers := addFinalizerTo o.finalizers instanceDeletionFinalizer,
            annotations :=
              annErase (annErase o.annotations processedGenerationKey) instanceIsRunningKey },
          { o with
            finalizers := addFinalizerTo o.finalizers instanceDeletionFinalizer,
            annotations :=
              annErase (annErase o.annotations processedGenerationKey) instanceIsRunningKey },
          some (wrapErr "unable to create or update aiven instance: " e)⟩ := by
      unfold createOrUpdateInstance
      simp only [hfail]
    unfold reconcileInstance
    dsimp only
    simp only [hm, Bool.false_eq_true, if_false, ite_false, hse, hie, Option.isSome_none,
      Bool.and_false]
    unfold reconcileAfterBootstrap
    dsimp only
    have hpc : checkPreconditionsStep h
        { o with finalizers := addFinalizerTo o.finalizers instanceDeletionFinalizer } =
        ⟨false, emptyResult, none,
          [Ev.mk false eventWaitingforPreconditions, Ev.mk false eventPreconditionsAreMet]⟩ := by
      unfold checkPreconditionsStep
      rw [hpre]
      rfl
    rw [hpc]
    dsimp only
    split
    · next hq => exact Bool.noConfusion hq
    · split
      · rw [hcu]
        dsimp only
        refine ⟨rfl, ?_, ?_, ?_⟩
        · by_cases hadd : containsFinalizer o.finalizers instanceDeletionFinalizer <;>
            simp [hadd, List.all_append, Step.isGetCall]
        · rw [annLookup_annErase_ne _ _ _ hne, annLookup_annErase_self]
        · rw [annLookup_annErase_self]
      · next hfalse =>
          rw [hproc1] at hfalse
          exact (hfalse rfl).elim

/-- C5 witness: the stripping and the abort-on-failure behaviour at a
concrete failing handler. -/
theorem c5_witness :
    (annLookup (createOrUpdateInstance hCreateFails oProcessedNotRunning).passedObj.annotations
        processedGenerationKey = none ∧
      annLookup (createOrUpdateInstance hCreateFails oProcessedNotRunning).passedObj.annotations
        instanceIsRunningKey = none) ∧
    ((reconcileInstance envClean hCreateFails oFresh sNone).error.isSome = true ∧
      (reconcileInstance envClean hCreateFails oFresh sNone).trace.all
        (fun p => !p.1.isGetCall) = true ∧
      annLookup (reconcileInstance envClean hCreateFails oFresh sNone).o.annotations
        processedGenerationKey = none ∧
      annLookup (reconcileInstance envClean hCreateFails oFresh sNone).o.annotations
        instanceIsRunningKey = none) :=
  ⟨c5_markers_stripped_before_createOrUpdate.1 hCreateFails oProcessedNotRunning,
    c5_markers_stripped_before_createOrUpdate.2 envClean hCreateFails oFresh sNone errBoom
      (by decide) rfl rfl (fun _ => rfl) (by decide) (fun _ => rfl)⟩

/-- C7: when the credential secret cannot be fetched, or the provider client
cannot be built from it, the pass emits a warning event, returns the error,
and finishes with the object and secret untouched and no handler call made. -/
theorem c7_credential_failure_aborts_cleanly :
    (∀ (oe : OuterEnv) (h : Handler) (o : Obj) (s : SecretObj) (e : Err),
      oe.getObjectErr = none →
      oe.getSecretErr = some e →
      (controllerReconcileInstance oe h o s).error = some (wrapErr "cannot get secret: " e) ∧
        (controllerReconcileInstance oe h o s).o = o ∧
        (controllerReconcileInstance oe h o s).s = s ∧
        (controllerReconcileInstance oe h o s).trace = [] ∧
        Ev.mk true eventUnableToGetAuthSecret ∈ (controllerReconcileInstance oe h o s).events) ∧
    (∀ (oe : OuterEnv) (h : Handler) (o : Obj) (s : SecretObj) (e : Err),
      oe.getObjectErr = none →
      oe.getSecretErr = none →
      oe.newClientErr = some e →
      (controllerReconcileInstance oe h o s).error =
          some (wrapErr "cannot initialize aiven client: " e) ∧
        (controllerReconcileInstance oe h o s).o = o ∧
        (controllerReconcileInstance oe h o s).s = s ∧
        (controllerReconcileInstance oe h o s).trace = [] ∧
        Ev.mk true eventUnableToCreateClient ∈ (controllerReconcileInstance oe h o s).events) := by
  constructor
  · intro oe h o s e hobj hsec
    unfold controllerReconcileInstance
    rw [hobj, hsec]
    exact ⟨rfl, rfl, rfl, rfl, List.mem_singleton.mpr rfl⟩
  · intro oe h o s e hobj hsec hcl
    unfold controllerReconcileInstance
    rw [hobj, hsec, hcl]
    exact ⟨rfl, rfl, rfl, rfl, List.mem_singleton.mpr rfl⟩

/-- C7 witness: both failure modes at concrete environments. -/
theorem c7_witness :
    ((controllerReconcileInstance ⟨none, some errK8sGet, none, envClean⟩ hBase oFresh sNone).error =
        some (wrapErr "cannot get secret: " errK8sGet) ∧
      (controllerReconcileInstance ⟨none, some errK8sGet, none, envClean⟩ hBase oFresh
          sNone).o = oFresh ∧
      (controllerReconcileInstance ⟨none, some errK8sGet, none, envClean⟩ hBase oFresh
          sNone).s = sNone ∧
      (controllerReconcileInstance ⟨none, some errK8sGet, none, envClean⟩ hBase oFresh
          sNone).trace = [] ∧
      Ev.mk true eventUnableToGetAuthSecret ∈
        (controllerReconcileInstance ⟨none, some errK8sGet, none, envClean⟩ hBase oFresh
          sNone).events) ∧
    ((controllerReconcileInstance ⟨none, none, some errBoom, envClean⟩ hBase oFresh sNone).error =
        some (wrapErr "cannot initialize aiven client: " errBoom) ∧
      (controllerReconcileInstance ⟨none, none, some errBoom, envClean⟩ hBase oFresh
          sNone).o = oFresh ∧
      (controllerReconcileInstance ⟨none, none, some errBoom, envClean⟩ hBase oFresh
          sNone).s = sNone ∧
      (controllerReconcileInstance ⟨none, none, some errBoom, envClean⟩ hBase oFresh
          sNone).trace = [] ∧
      Ev.mk true eventUnableToCreateClient ∈
        (controllerReconcileInstance ⟨none, none, some errBoom, envClean⟩ hBase oFresh
          sNone).events) :=
  ⟨c7_credential_failure_aborts_cleanly.1 ⟨none, some errK8sGet, none, envClean⟩ hBase oFresh
      sNone errK8sGet rfl rfl,
    c7_credential_failure_aborts_cleanly.2 ⟨none, none, some errBoom, envClean⟩ hBase oFresh
      sNone errBoom rfl rfl rfl⟩

/-- C9: flattening a structure whose optional fields are all unset yields the
empty mapping; flattening a structure with exactly one present scalar field
and the rest unset yields exactly the one-key mapping for that field; and the
pruning pass keeps exactly the keys whose value is not null, not the empty
string, and not an empty nested mapping. -/
theorem c9_flatten_prunes_unset :
    (∀ fs : List (String × FieldVal),
      (∀ p ∈ fs, p.2 = FieldVal.nilPtr) →
      UserConfigurationToAPI (FieldVal.structPtr fs) = GoVal.vmap []) ∧
    (∀ (pre post : List (String × FieldVal)) (nm : String) (v : FieldVal),
      isPresentScalar v = true →
      (∀ p ∈ pre, p.2 = FieldVal.nilPtr) →
      (∀ p ∈ post, p.2 = FieldVal.nilPtr) →
      UserConfigurationToAPI (FieldVal.structPtr (pre ++ (nm, v) :: post)) =
        GoVal.vmap [(nm, scalarImage v)]) ∧
    (∀ (entries : List (String × GoVal)) (nm : String) (gv : GoVal),
      (nm, gv) ∈ pruneEntries entries ↔
        ((nm, gv) ∈ entries ∧
          ¬(gv = GoVal.vnilPtr ∨ gv = GoVal.vstr "" ∨ gv = GoVal.vmap []))) := by
  refine ⟨?_, ?_, ?_⟩
  · intro fs hall
    simp only [UserConfigurationToAPI]
    rw [pruneEntries_flattenFields_unset fs hall]
  · intro pre post nm v hv hpre hpost
    simp only [UserConfigurationToAPI]
    rw [flattenFields_append, pruneEntries_append, pruneEntries_flattenFields_unset pre hpre,
      List.nil_append]
    simp only [flattenFields]
    rw [scalar_image_eq v hv]
    have hpost2 : pruneEntries (flattenFields post) = [] :=
      pruneEntries_flattenFields_unset post hpost
    unfold pruneEntries
    rw [List.filter_cons]
    unfold pruneEntries at hpost2
    rw [hpost2, scalar_image_not_pruned v hv]
    rfl
  · intro entries nm gv
    unfold pruneEntries
    rw [List.mem_filter]
    constructor
    · rintro ⟨hm, hp⟩
      exact ⟨hm, (shouldPrune_false_iff gv).mp hp⟩
    · rintro ⟨hm, hp⟩
      exact ⟨hm, (shouldPrune_false_iff gv).mpr hp⟩

/-- C9 witness: a two-field all-unset structure flattens to the empty map; a
structure with one present `*int64` field and one unset field flattens to a
single-key map. -/
theorem c9_witness :
    (∀ p ∈ ([("a", FieldVal.nilPtr), ("b", FieldVal.nilPtr)] : List (String × FieldVal)),
      p.2 = FieldVal.nilPtr) ∧
    UserConfigurationToAPI
        (FieldVal.structPtr [("a", FieldVal.nilPtr), ("b", FieldVal.nilPtr)]) =
      GoVal.vmap [] ∧
    isPresentScalar (FieldVal.int64Ptr 3) = true ∧
    UserConfigurationToAPI
        (FieldVal.structPtr [("a", FieldVal.nilPtr), ("b", FieldVal.int64Ptr 3)]) =
      GoVal.vmap [("b", GoVal.vint 3)] := by
  have hall : ∀ p ∈ ([("a", FieldVal.nilPtr), ("b", FieldVal.nilPtr)] :
      List (String × FieldVal)), p.2 = FieldVal.nilPtr := by
    intro p hp
    rcases List.mem_cons.mp hp with rfl | hp2
    · rfl
    · rcases List.mem_cons.mp hp2 with rfl | hp3
      · rfl
      · exact absurd hp3 (List.not_mem_nil p)
  have ha : ∀ p ∈ ([("a", FieldVal.nilPtr)] : List (String × FieldVal)),
      p.2 = FieldVal.nilPtr := by
    intro p hp
    rcases List.mem_cons.mp hp with rfl | hp2
    · rfl
    · exact absurd hp2 (List.not_mem_nil p)
  have hnil : ∀ p ∈ ([] : List (String × FieldVal)), p.2 = FieldVal.nilPtr := by
    intro p hp
    exact absurd hp (List.not_mem_nil p)
  refine ⟨hall, c9_flatten_prunes_unset.1 _ hall, rfl, ?_⟩
  have happ := c9_flatten_prunes_unset.2.1 [("a", FieldVal.nilPtr)] [] "b"
    (FieldVal.int64Ptr 3) rfl ha hnil
  simpa [scalarImage] using happ

end AivenOperator
